import Mathlib

/-!
Verification of the GoTgBot quiz/leaderboard system.

Shallow embedding of:
- `internal/service/leaderboard.go`: `LeaderboardEntry`, the best-wins merge in
  `GistLeaderboardService.AddEntry` / `MemoryLeaderboardService.AddEntry`,
  `GetTop`, `GetUserPosition`;
- `internal/telegram/handler.go`: `Bot.handleQuizAnswer`, `Bot.startQuiz`,
  `Bot.finishQuiz`;
- the question parser (`ParseQuizQuestions`, `parseQuestionLine`,
  `LoadQuizQuestions`, `DefaultQuizQuestions`) and the shuffle
  (`ShuffleQuestions`).

Modelling conventions:
- Go `int`/`int64` values that are counts (scores, totals, lengths) are `Nat`;
  identifiers and values that flow through `strconv.Atoi` (which can produce
  negative numbers) are `Int`.  Overflow is irrelevant at the sizes involved.
- A Go runtime panic (index out of range, slice bounds out of range, integer
  division by zero) is modelled by an `Option`/dedicated constructor: `none` or
  `.panic` means the Go code panics on that input.
- Network effects of the gist-backed service are modelled by two booleans
  `loadOk`/`saveOk` (whether the HTTP GET / PATCH round trip succeeds) plus the
  current remote entry list; a failed save leaves the remote list unchanged.
- Strings that are only carried along (usernames, dates, message text) are
  plain `String` fields; strings that the code inspects byte by byte
  (callback data, question-file lines) are `List Char`.
-/

/-- `service.LeaderboardEntry` (leaderboard.go lines 15-23). -/
structure LeaderboardEntry where
  userID : Int
  username : String
  firstName : String
  score : Nat
  total : Nat
  percentage : Nat
  date : String
deriving DecidableEq, Repr

/-- The percentage computation `(score * 100) / total` shared by both
`AddEntry` implementations (leaderboard.go lines 156 and 245).  Go integer
division panics when `total = 0`, hence the `Option`. -/
def computePercentage (score total : Nat) : Option Nat :=
  if total = 0 then none else some (score * 100 / total)

/-- The best-wins comparison from leaderboard.go line 173 / 258:
`percentage > entry.Percentage || (percentage == entry.Percentage && score > entry.Score)`. -/
def betterThan (newPct newScore oldPct oldScore : Nat) : Bool :=
  decide (newPct > oldPct) || (decide (newPct = oldPct) && decide (newScore > oldScore))

/-- The merge loop shared (verbatim, character for character) by
`GistLeaderboardService.AddEntry` (leaderboard.go lines 167-183) and
`MemoryLeaderboardService.AddEntry` (lines 256-265): scan for the first entry
with the same `UserID`; if found, replace it exactly when the new result is
better and stop (`break` / `return`); if no entry matches, append the new
entry at the end. -/
def mergeEntries (entries : List LeaderboardEntry) (e : LeaderboardEntry) :
    List LeaderboardEntry :=
  match entries with
  | [] => [e]
  | old :: rest =>
    if old.userID = e.userID then
      if betterThan e.percentage e.score old.percentage old.score then
        e :: rest
      else
        old :: rest
    else
      old :: mergeEntries rest e

/-- `MemoryLeaderboardService.AddEntry` (leaderboard.go lines 241-267).
State is the in-memory entry list; the `date` argument stands for
`time.Now().Format(...)`.  Returns the boolean result together with the new
entry list, or `none` for the division-by-zero panic when `total = 0`.
The Go code returns `true` on every non-panicking path: `true` inside the
loop when an entry with the same `UserID` exists (whether or not it was
replaced), and `true` after appending otherwise. -/
def MemoryLeaderboardService.AddEntry (entries : List LeaderboardEntry)
    (userID : Int) (username firstName : String) (score total : Nat)
    (date : String) : Option (Bool × List LeaderboardEntry) :=
  match computePercentage score total with
  | none => none
  | some pct =>
    let newEntry : LeaderboardEntry :=
      { userID := userID, username := username, firstName := firstName,
        score := score, total := total, percentage := pct, date := date }
    some (true, mergeEntries entries newEntry)

/-- `GistLeaderboardService.AddEntry` (leaderboard.go lines 149-191).
`loadOk` models whether `loadFromGist` succeeds, `saveOk` whether
`saveToGist` succeeds; `entries` is the current remote collection.  On load
failure the function returns `false` before computing the percentage (so no
panic even when `total = 0`); on save failure it returns `false` and the
remote collection is unchanged; otherwise it saves the merged collection and
returns `true` unconditionally. -/
def GistLeaderboardService.AddEntry (loadOk saveOk : Bool)
    (entries : List LeaderboardEntry) (userID : Int)
    (username firstName : String) (score total : Nat) (date : String) :
    Option (Bool × List LeaderboardEntry) :=
  if loadOk = false then
    some (false, entries)
  else
    match computePercentage score total with
    | none => none
    | some pct =>
      let newEntry : LeaderboardEntry :=
        { userID := userID, username := username, firstName := firstName,
          score := score, total := total, percentage := pct, date := date }
      let merged := mergeEntries entries newEntry
      if saveOk then some (true, merged) else some (false, entries)

/-- The `sort.Slice` comparator of `GetTop` (leaderboard.go lines 204-209 and
276-281): `i` comes before `j` when it has a strictly higher percentage, or an
equal percentage and a strictly higher score. -/
def entryLess (a b : LeaderboardEntry) : Bool :=
  if a.percentage = b.percentage then decide (a.score > b.score)
  else decide (a.percentage > b.percentage)

/-- "May precede" relation induced by the comparator: `a` may sit before `b`
in the sorted output exactly when `entryLess b a = false`.  This is the
postcondition `sort.Slice` guarantees for adjacent elements. -/
def entryLE (a b : LeaderboardEntry) : Prop := entryLess b a = false

instance : DecidableRel entryLE := fun a b =>
  inferInstanceAs (Decidable (entryLess b a = false))

/-- The claim-level descending order: higher percentage first, ties broken by
higher score. -/
def entryGE (a b : LeaderboardEntry) : Prop :=
  a.percentage > b.percentage ∨ (a.percentage = b.percentage ∧ a.score ≥ b.score)

instance : IsTotal LeaderboardEntry entryLE where
  total a b := by
    have key : ∀ x y : LeaderboardEntry, entryLess x y = false ↔
        (x.percentage < y.percentage ∨
          (x.percentage = y.percentage ∧ x.score ≤ y.score)) := by
      intro x y
      unfold entryLess
      by_cases h : x.percentage = y.percentage
      · rw [if_pos h]
        simp only [decide_eq_false_iff_not, not_lt]
        omega
      · rw [if_neg h]
        simp only [decide_eq_false_iff_not, not_lt]
        omega
    unfold entryLE
    rw [key, key]
    omega

instance : IsTrans LeaderboardEntry entryLE where
  trans a b c hab hbc := by
    have key : ∀ x y : LeaderboardEntry, entryLess x y = false ↔
        (x.percentage < y.percentage ∨
          (x.percentage = y.percentage ∧ x.score ≤ y.score)) := by
      intro x y
      unfold entryLess
      by_cases h : x.percentage = y.percentage
      · rw [if_pos h]
        simp only [decide_eq_false_iff_not, not_lt]
        omega
      · rw [if_neg h]
        simp only [decide_eq_false_iff_not, not_lt]
        omega
    unfold entryLE at hab hbc ⊢
    rw [key] at hab hbc ⊢
    omega

/-- The sorting step of both `GetTop` implementations: `sort.Slice` with the
`entryLess` comparator, i.e. some permutation of the input that is sorted
with respect to `entryLE` (modelled by insertion sort, which has exactly that
contract). -/
def sortEntries (entries : List LeaderboardEntry) : List LeaderboardEntry :=
  List.insertionSort entryLE entries

/-- Body shared by `GistLeaderboardService.GetTop` (leaderboard.go lines
200-215) and `MemoryLeaderboardService.GetTop` (lines 273-287): copy, sort,
clamp `limit` down to the length when it exceeds it, and slice `sorted[:limit]`.
Go slicing panics when `limit` is negative (the clamp only lowers large
limits), hence the `Option`. -/
def getTopFrom (entries : List LeaderboardEntry) (limit : Int) :
    Option (List LeaderboardEntry) :=
  let sorted := sortEntries entries
  let lim := if limit > (sorted.length : Int) then (sorted.length : Int) else limit
  if lim < 0 then none else some (sorted.take lim.toNat)

/-- `MemoryLeaderboardService.GetTop` (leaderboard.go lines 269-288). -/
def MemoryLeaderboardService.GetTop (entries : List LeaderboardEntry)
    (limit : Int) : Option (List LeaderboardEntry) :=
  getTopFrom entries limit

/-- `GistLeaderboardService.GetTop` (leaderboard.go lines 193-216): on load
failure it returns `nil` (here `[]`); otherwise the shared sort-and-clamp. -/
def GistLeaderboardService.GetTop (loadOk : Bool)
    (entries : List LeaderboardEntry) (limit : Int) :
    Option (List LeaderboardEntry) :=
  if loadOk then getTopFrom entries limit else some []

/-- The scan loop of both `GetUserPosition` implementations
(`for i, entry := range top { if entry.UserID == userID { return i + 1, &entry } }`;
`return -1, nil` after the loop). `i` is the running index. -/
def scanPositionAux (userID : Int) (i : Nat) :
    List LeaderboardEntry → Int × Option LeaderboardEntry
  | [] => (-1, none)
  | e :: rest =>
    if e.userID = userID then ((i + 1 : Nat), some e)
    else scanPositionAux userID (i + 1) rest

/-- `MemoryLeaderboardService.GetUserPosition` (leaderboard.go lines 290-298):
scans `GetTop(len(entries))`.  The limit `len(entries)` is nonnegative, so
`GetTop` cannot hit the negative-limit panic; `getD []` covers that
unreachable branch. -/
def MemoryLeaderboardService.GetUserPosition
    (entries : List LeaderboardEntry) (userID : Int) :
    Int × Option LeaderboardEntry :=
  scanPositionAux userID 0 ((getTopFrom entries (entries.length : Int)).getD [])

/-- `GistLeaderboardService.GetUserPosition` (leaderboard.go lines 218-226),
with both embedded loads succeeding: it scans
`GetTop(len(GetTop(1000)))`, i.e. at most the first 1000 entries of the
sorted collection.  Both limits are nonnegative, so the `getD []` branches
are unreachable. -/
def GistLeaderboardService.GetUserPosition
    (entries : List LeaderboardEntry) (userID : Int) :
    Int × Option LeaderboardEntry :=
  let t1 := (getTopFrom entries 1000).getD []
  let top := (getTopFrom entries (t1.length : Int)).getD []
  scanPositionAux userID 0 top

/-- `service.QuizQuestion` (models.go). `Correct` is a Go `int`, compared
against the `strconv.Atoi` result in the handler, hence `Int`. -/
structure QuizQuestion where
  id : Nat
  question : String
  options : List String
  correct : Int
deriving DecidableEq, Repr

/-- `service.QuizSession` (models.go). -/
structure QuizSession where
  userID : Int
  currentQuestion : Nat
  score : Nat
  questions : List QuizQuestion
deriving DecidableEq, Repr

/-- `strings.Split(data, "_")` specialised to the `"_"` separator: splits into
the (possibly empty) substrings between underscores; the empty string splits
into `[""]`. -/
def splitUnderscore : List Char → List (List Char)
  | [] => [[]]
  | c :: rest =>
    if c = '_' then [] :: splitUnderscore rest
    else
      match splitUnderscore rest with
      | [] => [[c]]
      | h :: t => (c :: h) :: t

/-- Decimal digit value of a character, `none` for non-digits. -/
def digitVal (c : Char) : Option Nat :=
  if '0' ≤ c ∧ c ≤ '9' then some (c.toNat - '0'.toNat) else none

/-- Accumulating decimal parse; fails on the first non-digit. -/
def parseDigitsAux (acc : Nat) : List Char → Option Nat
  | [] => some acc
  | c :: rest =>
    match digitVal c with
    | none => none
    | some d => parseDigitsAux (acc * 10 + d) rest

/-- `strconv.Atoi`: optional sign followed by at least one digit; any other
shape is an error (`none`).  Overflow is not modelled (irrelevant at the
sizes involved). -/
def atoi (s : List Char) : Option Int :=
  match s with
  | [] => none
  | '+' :: rest =>
    if rest = [] then none else (parseDigitsAux 0 rest).map (fun n => (n : Int))
  | '-' :: rest =>
    if rest = [] then none else (parseDigitsAux 0 rest).map (fun n => -(n : Int))
  | _ => (parseDigitsAux 0 s).map (fun n => (n : Int))

/-- The handler writes `questionIndex, _ := strconv.Atoi(parts[1])`,
discarding the error: a failed parse leaves the zero value. -/
def atoiOrZero (s : List Char) : Int := (atoi s).getD 0

/-- Result of one `Bot.handleQuizAnswer` invocation: `noop` is an early
`return` with no state change, `panic` a Go runtime panic (index out of
range), `answered s` the updated session written back through the map's
session pointer. -/
inductive AnswerOutcome where
  | noop
  | panic
  | answered (s : QuizSession)
deriving DecidableEq, Repr

/-- Core of `Bot.handleQuizAnswer` after callback-data parsing and session
lookup (handler.go lines 178-195): index `session.Questions[questionIndex]`
(panic when out of range, including negative); compare
`answerIndex == question.Correct`; on a correct answer increment the score;
on a wrong answer build the reply from `question.Options[question.Correct]`
(panic when that index is out of range); always increment
`session.CurrentQuestion`. -/
def answerCore (session : QuizSession) (questionIndex answerIndex : Int) :
    AnswerOutcome :=
  if h : 0 ≤ questionIndex ∧ questionIndex.toNat < session.questions.length then
    if answerIndex = (session.questions.get ⟨questionIndex.toNat, h.2⟩).correct then
      .answered { session with
        score := session.score + 1,
        currentQuestion := session.currentQuestion + 1 }
    else if 0 ≤ (session.questions.get ⟨questionIndex.toNat, h.2⟩).correct ∧
        (session.questions.get ⟨questionIndex.toNat, h.2⟩).correct.toNat <
          (session.questions.get ⟨questionIndex.toNat, h.2⟩).options.length then
      .answered { session with currentQuestion := session.currentQuestion + 1 }
    else
      .panic
  else
    .panic

/-- `Bot.handleQuizAnswer` (handler.go lines 166-205) up to the session
update: split the callback data on `"_"`; anything but exactly three parts is
an early return; parse the two indices with discarded `Atoi` errors; a
missing session is an early return; then `answerCore`.  (The follow-up call
to `finishQuiz` when the session is exhausted is modelled separately by
`Bot.finishQuiz`.) -/
def Bot.handleQuizAnswer (sessionOpt : Option QuizSession) (data : List Char) :
    AnswerOutcome :=
  match splitUnderscore data with
  | [_, p1, p2] =>
    let questionIndex := atoiOrZero p1
    let answerIndex := atoiOrZero p2
    match sessionOpt with
    | none => .noop
    | some session => answerCore session questionIndex answerIndex
  | _ => .noop

/-- `Bot.startQuiz` (handler.go lines 119-131): a fresh session over the
(already shuffled) question list, with `CurrentQuestion = 0` and `Score = 0`,
installed for `chatID`. -/
def Bot.startQuiz (chatID : Int) (shuffledQuestions : List QuizQuestion) :
    QuizSession :=
  { userID := chatID, currentQuestion := 0, score := 0,
    questions := shuffledQuestions }

/-- Iterated answer submission: apply `answerCore` once per submitted
`(questionIndex, optionIndex)` pair, threading the session; `none` when some
submission did not reach the session-update path. -/
def runAnswers (session : QuizSession) :
    List (Int × Int) → Option QuizSession
  | [] => some session
  | (qi, ai) :: rest =>
    match answerCore session qi ai with
    | .answered s' => runAnswers s' rest
    | _ => none

/-- Association-list view of the `quizSessions` map. -/
def lookupSession (sessions : List (Int × QuizSession)) (chatID : Int) :
    Option QuizSession :=
  match sessions.find? (fun p => p.1 = chatID) with
  | none => none
  | some p => some p.2

/-- `delete(b.quizSessions, chatID)`. -/
def removeSession (sessions : List (Int × QuizSession)) (chatID : Int) :
    List (Int × QuizSession) :=
  sessions.filter (fun p => ¬ p.1 = chatID)

/-- Map-level `Bot.handleQuizAnswer`: the session map after the call (the Go
map holds a `*QuizSession`, so an answered session is updated in place under
its key); `none` models a panic. -/
def Bot.handleQuizAnswerMap (sessions : List (Int × QuizSession))
    (chatID : Int) (data : List Char) : Option (List (Int × QuizSession)) :=
  match Bot.handleQuizAnswer (lookupSession sessions chatID) data with
  | .noop => some sessions
  | .panic => none
  | .answered s' =>
    some (sessions.map (fun p => if p.1 = chatID then (p.1, s') else p))

/-- `Bot.finishQuiz` (handler.go lines 207-257) acting on the session map and
the in-memory leaderboard: a missing session is an early return (no state
change); otherwise the session is removed; when `exited` the leaderboard is
untouched; otherwise `AddEntry(user.ID, ..., session.Score,
len(session.Questions))` runs (`none` models its division-by-zero panic on an
empty question list). -/
def Bot.finishQuiz (sessions : List (Int × QuizSession))
    (leaderboard : List LeaderboardEntry) (chatID : Int) (exited : Bool)
    (userID : Int) (username firstName : String) (date : String) :
    Option (List (Int × QuizSession) × List LeaderboardEntry) :=
  match lookupSession sessions chatID with
  | none => some (sessions, leaderboard)
  | some session =>
    let sessions' := removeSession sessions chatID
    if exited then some (sessions', leaderboard)
    else
      match MemoryLeaderboardService.AddEntry leaderboard userID username
          firstName session.score session.questions.length date with
      | none => none
      | some (_, lb') => some (sessions', lb')

/-- `strings.TrimSpace`: drop leading and trailing whitespace (the question
file is ASCII, so `Char.isWhitespace` matches Go's cutset there). -/
def trimSpace (l : List Char) : List Char :=
  (l.dropWhile Char.isWhitespace).reverse.dropWhile Char.isWhitespace |>.reverse

/-- The two fixed answer options every parsed question gets
(questions.go: `[]string{"👍Халяль", "🐖Харам"}`). -/
def fixedOptions : List String := ["👍Халяль", "🐖Харам"]

/-- `parseQuestionLine` (questions.go lines 57-90): find the first `"` in
`line[1:]` (its absence is the missing-closing-quote error); the question
text is `line[1:quoteEnd]`; the remainder after the quote is trimmed; an
empty remainder is the missing-indicator error; `strconv.Atoi` of the single
first character must yield 0 or 1; finally an empty question text is an
error. -/
def parseQuestionLine (line : List Char) :
    Except String (List Char × Int) :=
  let tail := line.drop 1
  match tail.findIdx? (fun c => c = '"') with
  | none => .error "invalid format: no closing quote"
  | some idx =>
    let question := tail.take idx
    let remaining := trimSpace (tail.drop (idx + 1))
    match remaining with
    | [] => .error "no correctness indicator found"
    | c :: _ =>
      match digitVal c with
      | none => .error "invalid correctness indicator"
      | some d =>
        if d ≠ 0 ∧ d ≠ 1 then .error "correctness must be 0 or 1"
        else if question.length = 0 then .error "question cannot be empty"
        else .ok (question, (d : Int))

/-- The scanner loop of `ParseQuizQuestions` (questions.go lines 24-43):
trim each line, skip blank lines, parse the rest in order with a running
`questionID` starting at the given value, and abort the whole parse on the
first line error. -/
def parseLinesAux (questionID : Nat) :
    List (List Char) → Except String (List QuizQuestion)
  | [] => .ok []
  | l :: ls =>
    let line := trimSpace l
    if line = [] then parseLinesAux questionID ls
    else
      match parseQuestionLine line with
      | .error e => .error e
      | .ok (q, c) =>
        match parseLinesAux (questionID + 1) ls with
        | .error e => .error e
        | .ok rest =>
          .ok ({ id := questionID, question := String.mk q,
                 options := fixedOptions, correct := c } :: rest)

/-- `ParseQuizQuestions` (questions.go lines 13-54) on the list of lines of
an already-opened file: the scanner loop, then the final
`no valid questions found in file` check. -/
def ParseQuizQuestions (lines : List (List Char)) :
    Except String (List QuizQuestion) :=
  match parseLinesAux 1 lines with
  | .error e => .error e
  | .ok [] => .error "no valid questions found in file"
  | .ok qs => .ok qs

/-- `DefaultQuizQuestions` (questions.go lines 106-121). -/
def DefaultQuizQuestions : List QuizQuestion :=
  [ { id := 1, question := "Свинина", options := fixedOptions, correct := 1 },
    { id := 2, question := "Курица", options := fixedOptions, correct := 0 } ]

/-- `LoadQuizQuestions` (questions.go lines 93-103): `none` models a file
that cannot be opened; any load failure (unreadable file or parse error)
falls back to the built-in default question set. -/
def LoadQuizQuestions (file : Option (List (List Char))) : List QuizQuestion :=
  match file with
  | none => DefaultQuizQuestions
  | some lines =>
    match ParseQuizQuestions lines with
    | .error _ => DefaultQuizQuestions
    | .ok qs => qs

/-- The parallel assignment `shuffled[i], shuffled[j] = shuffled[j], shuffled[i]`
(shuffle.go line 141).  Go's `r.Intn(i+1)` keeps both indices in bounds; the
out-of-bounds fallback keeps the definition total without touching the list. -/
def listSwap (l : List QuizQuestion) (i j : Nat) : List QuizQuestion :=
  if h : i < l.length ∧ j < l.length then
    (l.set i (l.get ⟨j, h.2⟩)).set j (l.get ⟨i, h.1⟩)
  else l

/-- The Fisher–Yates loop of `ShuffleQuestions` (shuffle.go lines 139-142),
counting `i` down from `len(shuffled)-1` to `1`; `rand i` models `r.Intn(i+1)`
(so `rand i ≤ i` for a faithful randomness source). -/
def fisherYatesAux (rand : Nat → Nat) (l : List QuizQuestion) :
    Nat → List QuizQuestion
  | 0 => l
  | Nat.succ k => fisherYatesAux rand (listSwap l (k + 1) (rand (k + 1))) k

/-- `ShuffleQuestions` (shuffle.go lines 130-145): copy the input (the model
is pure, so the copy is the function itself never mutating its argument) and
run the Fisher–Yates loop; `rand` stands for the reseeded `rand.New` source. -/
def ShuffleQuestions (rand : Nat → Nat) (questions : List QuizQuestion) :
    List QuizQuestion :=
  fisherYatesAux rand questions (questions.length - 1)

/-- A stored entry with `(percentage = 70, score = 7)` (the stored result of
the spec's best-wins examples). -/
def entryPct70Score7 : LeaderboardEntry :=
  { userID := 1, username := "u", firstName := "f",
    score := 7, total := 10, percentage := 70, date := "d" }

/-- A submission with `(percentage = 80, score = 4)`. -/
def entryPct80Score4 : LeaderboardEntry :=
  { userID := 1, username := "u", firstName := "f",
    score := 4, total := 5, percentage := 80, date := "d2" }

/-- A submission with `(percentage = 70, score = 9)` (the merge only reads
the stored `percentage`/`score` fields). -/
def entryPct70Score9 : LeaderboardEntry :=
  { userID := 1, username := "u", firstName := "f",
    score := 9, total := 13, percentage := 70, date := "d2" }

/-- 1001 distinct users, all with the same `(percentage, score)`. -/
def bigEntries : List LeaderboardEntry :=
  (List.range 1001).map (fun k =>
    { userID := (k : Int), username := "", firstName := "",
      score := 1, total := 2, percentage := 50, date := "" })

/-- The last of the 1001 users of `bigEntries`. -/
def targetEntry : LeaderboardEntry :=
  { userID := 1000, username := "", firstName := "",
    score := 1, total := 2, percentage := 50, date := "" }

/- ------------------------------------------------------------------ -/
/- Helper lemmas.                                                      -/
/- ------------------------------------------------------------------ -/

theorem betterThan_iff (p s p' s' : Nat) :
    betterThan p s p' s' = true ↔ (p' < p ∨ (p = p' ∧ s' < s)) := by
  unfold betterThan
  simp only [Bool.or_eq_true, Bool.and_eq_true, decide_eq_true_eq]

theorem mergeEntries_not_found (entries : List LeaderboardEntry)
    (e : LeaderboardEntry) (h : ∀ x ∈ entries, x.userID ≠ e.userID) :
    mergeEntries entries e = entries ++ [e] := by
  induction entries with
  | nil => rfl
  | cons old rest ih =>
    unfold mergeEntries
    rw [if_neg (h old (by simp))]
    rw [ih (fun x hx => h x (by simp [hx]))]
    simp

theorem mergeEntries_found (pre post : List LeaderboardEntry)
    (old e : LeaderboardEntry) (hpre : ∀ x ∈ pre, x.userID ≠ e.userID)
    (hold : old.userID = e.userID) :
    mergeEntries (pre ++ old :: post) e =
      if betterThan e.percentage e.score old.percentage old.score then
        pre ++ e :: post
      else pre ++ old :: post := by
  induction pre with
  | nil =>
    simp only [List.nil_append]
    unfold mergeEntries
    rw [if_pos hold]
  | cons p pre' ih =>
    simp only [List.cons_append]
    unfold mergeEntries
    rw [if_neg (hpre p (by simp))]
    rw [ih (fun x hx => hpre x (by simp [hx]))]
    split <;> rfl

/-- C1 (best-wins merge): for every leaderboard state and every AddEntry
call (with `total > 0` so the percentage computation succeeds), both
implementations store `mergeEntries entries newEntry`; the merge appends a
new entry when no stored entry has the submitted `userID`, and replaces the
stored entry exactly when the submission is strictly better under the
`(percentage, score)` ordering (`betterThan`, characterised in the first
conjunct), leaving the collection unchanged otherwise.  In particular a
stored `(70, 7)` is overwritten both by `(80, 4)` and by `(70, 9)`. -/
theorem C1_best_wins_merge :
    (∀ p s p' s', betterThan p s p' s' = true ↔ (p' < p ∨ (p = p' ∧ s' < s))) ∧
    (∀ (entries : List LeaderboardEntry) (uid : Int) (un fn : String)
        (score total : Nat) (date : String), 0 < total →
      MemoryLeaderboardService.AddEntry entries uid un fn score total date =
        some (true, mergeEntries entries
          { userID := uid, username := un, firstName := fn, score := score,
            total := total, percentage := score * 100 / total, date := date }) ∧
      GistLeaderboardService.AddEntry true true entries uid un fn score total date =
        some (true, mergeEntries entries
          { userID := uid, username := un, firstName := fn, score := score,
            total := total, percentage := score * 100 / total, date := date })) ∧
    (∀ (entries : List LeaderboardEntry) (e : LeaderboardEntry),
      (∀ x ∈ entries, x.userID ≠ e.userID) →
      mergeEntries entries e = entries ++ [e]) ∧
    (∀ (pre post : List LeaderboardEntry) (old e : LeaderboardEntry),
      (∀ x ∈ pre, x.userID ≠ e.userID) → old.userID = e.userID →
      mergeEntries (pre ++ old :: post) e =
        if betterThan e.percentage e.score old.percentage old.score then
          pre ++ e :: post
        else pre ++ old :: post) ∧
    (mergeEntries [entryPct70Score7] entryPct80Score4 = [entryPct80Score4] ∧
     mergeEntries [entryPct70Score7] entryPct70Score9 = [entryPct70Score9]) := by
  refine ⟨betterThan_iff, ?_, mergeEntries_not_found, mergeEntries_found, by decide⟩
  intro entries uid un fn score total date ht
  have hne : total ≠ 0 := Nat.pos_iff_ne_zero.mp ht
  constructor
  · unfold MemoryLeaderboardService.AddEntry computePercentage
    rw [if_neg hne]
  · unfold GistLeaderboardService.AddEntry computePercentage
    rw [if_neg hne]
    rfl

/-- Witness for C1 at concrete inputs: the comparison characterisation at
`(80,4)` against `(70,7)`, a fresh insert into the empty collection, the
replacement rule for stored `(70,7)` against submission `(80,4)`, and a
concrete successful `AddEntry`. -/
theorem C1_best_wins_merge_witness :
    (betterThan 80 4 70 7 = true ↔ (70 < 80 ∨ (80 = 70 ∧ 7 < 4))) ∧
    mergeEntries [] entryPct80Score4 = [] ++ [entryPct80Score4] ∧
    (mergeEntries ([] ++ entryPct70Score7 :: []) entryPct80Score4 =
      if betterThan entryPct80Score4.percentage entryPct80Score4.score
          entryPct70Score7.percentage entryPct70Score7.score then
        [] ++ entryPct80Score4 :: []
      else [] ++ entryPct70Score7 :: []) ∧
    MemoryLeaderboardService.AddEntry [] 1 "u" "f" 3 10 "d" =
      some (true, mergeEntries []
        { userID := 1, username := "u", firstName := "f", score := 3,
          total := 10, percentage := 3 * 100 / 10, date := "d" }) :=
  ⟨C1_best_wins_merge.1 80 4 70 7,
   C1_best_wins_merge.2.2.1 [] entryPct80Score4 (by simp),
   C1_best_wins_merge.2.2.2.1 [] [] entryPct70Score7 entryPct80Score4
     (by simp) (by decide),
   (C1_best_wins_merge.2.1 [] 1 "u" "f" 3 10 "d" (by decide)).1⟩

/-- C2 (code bug): the claim says AddEntry returns `true` iff the entry was
newly inserted or improved the stored entry, and `false` for a non-improving
submission.  The code instead returns `true` for a non-improving submission:
with stored `(percentage 70, score 7)` for user 1, submitting
`(score 3, total 10)` (percentage 30) leaves the entry unchanged yet both
implementations return `true` (the memory one always, the gist one whenever
load and save succeed).  The failure halves of the claim do hold: a failed
load or save makes the gist implementation return `false`. -/
theorem C2_addEntry_true_on_non_improving :
    MemoryLeaderboardService.AddEntry [entryPct70Score7] 1 "u" "f" 3 10 "d2" =
      some (true, [entryPct70Score7]) ∧
    GistLeaderboardService.AddEntry true true [entryPct70Score7] 1 "u" "f" 3 10 "d2" =
      some (true, [entryPct70Score7]) ∧
    GistLeaderboardService.AddEntry false true [entryPct70Score7] 1 "u" "f" 9 10 "d2" =
      some (false, [entryPct70Score7]) ∧
    GistLeaderboardService.AddEntry true false [entryPct70Score7] 1 "u" "f" 9 10 "d2" =
      some (false, [entryPct70Score7]) := by
  decide

/-- C10 (implicit precondition `total > 0`): with `total = 0` both
implementations hit the unguarded `(score * 100) / total` and panic (`none`),
the gist one provided the load succeeded (on load failure it returns before
dividing); with `total > 0` the division succeeds and yields exactly the
floor of `score * 100 / total`, characterised by the two floor
inequalities. -/
theorem C10_total_zero_panics :
    (∀ (entries : List LeaderboardEntry) (uid : Int) (un fn : String)
        (score : Nat) (date : String),
      MemoryLeaderboardService.AddEntry entries uid un fn score 0 date = none) ∧
    (∀ (saveOk : Bool) (entries : List LeaderboardEntry) (uid : Int)
        (un fn : String) (score : Nat) (date : String),
      GistLeaderboardService.AddEntry true saveOk entries uid un fn score 0 date = none) ∧
    (∀ score total, 0 < total →
      computePercentage score total = some (score * 100 / total) ∧
      (score * 100 / total) * total ≤ score * 100 ∧
      score * 100 < (score * 100 / total + 1) * total) := by
  refine ⟨?_, ?_, ?_⟩
  · intro entries uid un fn score date
    rfl
  · intro saveOk entries uid un fn score date
    rfl
  · intro score total ht
    refine ⟨?_, Nat.div_mul_le_self _ _, ?_⟩
    · unfold computePercentage
      rw [if_neg (Nat.pos_iff_ne_zero.mp ht)]
    · have h1 := Nat.div_add_mod (score * 100) total
      have h2 := Nat.mod_lt (score * 100) ht
      calc score * 100
          = total * (score * 100 / total) + score * 100 % total := h1.symm
        _ < total * (score * 100 / total) + total := by omega
        _ = (score * 100 / total + 1) * total := by ring

/-- Witness for C10 at a concrete input: `total = 0` panics, `total = 10`
with `score = 3` gives percentage 30 with the floor bounds. -/
theorem C10_total_zero_panics_witness :
    MemoryLeaderboardService.AddEntry [] 1 "u" "f" 3 0 "d" = none ∧
    (computePercentage 3 10 = some (3 * 100 / 10) ∧
      (3 * 100 / 10) * 10 ≤ 3 * 100 ∧ 3 * 100 < (3 * 100 / 10 + 1) * 10) :=
  ⟨C10_total_zero_panics.1 [] 1 "u" "f" 3 "d",
   C10_total_zero_panics.2.2 3 10 (by decide)⟩

theorem entryLess_eq_false_iff (x y : LeaderboardEntry) :
    entryLess x y = false ↔
      (x.percentage < y.percentage ∨
        (x.percentage = y.percentage ∧ x.score ≤ y.score)) := by
  unfold entryLess
  by_cases h : x.percentage = y.percentage
  · rw [if_pos h]
    simp only [decide_eq_false_iff_not, not_lt]
    omega
  · rw [if_neg h]
    simp only [decide_eq_false_iff_not, not_lt]
    omega

theorem entryLE_iff_entryGE (a b : LeaderboardEntry) :
    entryLE a b ↔ entryGE a b := by
  unfold entryLE entryGE
  rw [entryLess_eq_false_iff]
  omega

theorem sortEntries_perm (l : List LeaderboardEntry) :
    (sortEntries l).Perm l :=
  List.perm_insertionSort entryLE l

theorem sortEntries_sorted (l : List LeaderboardEntry) :
    (sortEntries l).Sorted entryGE :=
  (List.sorted_insertionSort entryLE l).imp ((entryLE_iff_entryGE _ _).mp)

theorem sortEntries_length (l : List LeaderboardEntry) :
    (sortEntries l).length = l.length :=
  (sortEntries_perm l).length_eq

theorem getTopFrom_eq_take (entries : List LeaderboardEntry) (limit : Int)
    (h : 0 ≤ limit) :
    getTopFrom entries limit = some ((sortEntries entries).take limit.toNat) := by
  simp only [getTopFrom]
  split_ifs with h1 h2 h3
  · omega
  · rw [Int.toNat_ofNat, List.take_length,
      List.take_of_length_le (by omega : (sortEntries entries).length ≤ limit.toNat)]
  · omega
  · rfl

/-- C5 (amended: nonnegative limits): for every collection and every limit
`0 ≤ limit`, both GetTop implementations return exactly
`min(limit, collectionSize)` entries — so never more than that — sorted
descending by percentage with ties descending by score, taken as a prefix of
one sorted permutation of the collection; a limit larger than the collection
is clamped rather than being an error.  (A negative limit is not clamped: it
panics, see the counterexample.) -/
theorem C5_getTop_spec :
    ∀ (entries : List LeaderboardEntry) (limit : Int), 0 ≤ limit →
      ∃ out, getTopFrom entries limit = some out ∧
        MemoryLeaderboardService.GetTop entries limit = some out ∧
        GistLeaderboardService.GetTop true entries limit = some out ∧
        out.length = min limit.toNat entries.length ∧
        out.Sorted entryGE ∧
        out.Sublist (sortEntries entries) ∧
        (sortEntries entries).Perm entries := by
  intro entries limit h
  refine ⟨(sortEntries entries).take limit.toNat,
    getTopFrom_eq_take entries limit h, ?_, ?_, ?_, ?_, ?_, sortEntries_perm entries⟩
  · exact getTopFrom_eq_take entries limit h
  · simp only [GistLeaderboardService.GetTop, if_pos rfl]
    exact getTopFrom_eq_take entries limit h
  · rw [List.length_take, sortEntries_length]
  · exact (sortEntries_sorted entries).sublist (List.take_sublist _ _)
  · exact List.take_sublist _ _

/-- Witness for C5 at a concrete input: a one-entry collection with limit 1. -/
theorem C5_getTop_spec_witness :
    ∃ out, getTopFrom [entryPct70Score7] 1 = some out ∧
      MemoryLeaderboardService.GetTop [entryPct70Score7] 1 = some out ∧
      GistLeaderboardService.GetTop true [entryPct70Score7] 1 = some out ∧
      out.length = min (Int.toNat 1) [entryPct70Score7].length ∧
      out.Sorted entryGE ∧
      out.Sublist (sortEntries [entryPct70Score7]) ∧
      (sortEntries [entryPct70Score7]).Perm [entryPct70Score7] :=
  C5_getTop_spec [entryPct70Score7] 1 (by decide)

/-- Counterexample to C5 as stated: a negative limit is not clamped — both
implementations slice `sorted[:limit]` with a negative bound, a Go
slice-bounds panic (`none`), not a clamped success. -/
theorem C5_negative_limit_panics :
    MemoryLeaderboardService.GetTop [entryPct70Score7] (-1) = none ∧
    GistLeaderboardService.GetTop true [entryPct70Score7] (-1) = none := by
  decide

theorem scanPositionAux_not_found (uid : Int) :
    ∀ (l : List LeaderboardEntry) (i : Nat),
      (∀ e ∈ l, e.userID ≠ uid) → scanPositionAux uid i l = (-1, none) := by
  intro l
  induction l with
  | nil => intro i _; rfl
  | cons e rest ih =>
    intro i h
    unfold scanPositionAux
    rw [if_neg (h e (by simp))]
    exact ih (i + 1) (fun x hx => h x (by simp [hx]))

theorem scanPositionAux_found (uid : Int) :
    ∀ (l : List LeaderboardEntry) (i : Nat),
      (∃ e ∈ l, e.userID = uid) →
      ∃ k ent, scanPositionAux uid i l = (((i + k + 1 : Nat) : Int), some ent) ∧
        l.get? k = some ent ∧ ent.userID = uid ∧
        ∀ j x, j < k → l.get? j = some x → x.userID ≠ uid := by
  intro l
  induction l with
  | nil => intro i h; simp at h
  | cons e rest ih =>
    intro i hex
    by_cases he : e.userID = uid
    · refine ⟨0, e, ?_, rfl, he, ?_⟩
      · unfold scanPositionAux
        rw [if_pos he]
      · intro j x hj
        omega
    · have hex' : ∃ x ∈ rest, x.userID = uid := by
        rcases hex with ⟨x, hx, hxe⟩
        rcases List.mem_cons.mp hx with rfl | hx'
        · exact absurd hxe he
        · exact ⟨x, hx', hxe⟩
      obtain ⟨k, ent, h1, h2, h3, h4⟩ := ih (i + 1) hex'
      refine ⟨k + 1, ent, ?_, h2, h3, ?_⟩
      · unfold scanPositionAux
        rw [if_neg he]
        rw [h1]
        congr 2
        omega
      · intro j x hj hx
        match j with
        | 0 =>
          simp only [List.get?] at hx
          cases hx
          exact he
        | Nat.succ j' => exact h4 j' x (by omega) hx

theorem memoryGetUserPosition_eq_scan (entries : List LeaderboardEntry)
    (uid : Int) :
    MemoryLeaderboardService.GetUserPosition entries uid =
      scanPositionAux uid 0 (sortEntries entries) := by
  unfold MemoryLeaderboardService.GetUserPosition
  rw [getTopFrom_eq_take entries _ (by omega)]
  simp only [Option.getD_some]
  rw [Int.toNat_ofNat,
    List.take_of_length_le (by rw [sortEntries_length])]

theorem gistGetUserPosition_eq_scan (entries : List LeaderboardEntry)
    (uid : Int) (h : entries.length ≤ 1000) :
    GistLeaderboardService.GetUserPosition entries uid =
      scanPositionAux uid 0 (sortEntries entries) := by
  unfold GistLeaderboardService.GetUserPosition
  rw [getTopFrom_eq_take entries 1000 (by omega)]
  simp only [Option.getD_some]
  have htake : (sortEntries entries).take (Int.toNat 1000) = sortEntries entries := by
    apply List.take_of_length_le
    rw [sortEntries_length]
    omega
  rw [htake]
  rw [getTopFrom_eq_take entries _ (by omega)]
  simp only [Option.getD_some]
  rw [Int.toNat_ofNat, List.take_of_length_le (le_refl _)]

/-- C6 (amended: gist capped at 1000 entries): for every collection, a
`userID` with no stored entry gets the not-found sentinel `(-1, nil)` and
never a numeric rank; a stored `userID` gets its 1-based rank within the
collection sorted descending by `(percentage, score)` together with that
entry (the rank points at the first matching position of the sorted
permutation).  This holds unconditionally for the memory implementation;
the gist implementation agrees with it only when the collection has at most
1000 entries (it scans `GetTop(len(GetTop(1000)))`; see the
counterexample for a present user ranked beyond 1000). -/
theorem C6_getUserPosition_spec :
    ∀ (entries : List LeaderboardEntry) (uid : Int),
      ((∀ e ∈ entries, e.userID ≠ uid) →
        MemoryLeaderboardService.GetUserPosition entries uid = (-1, none)) ∧
      ((∃ e ∈ entries, e.userID = uid) →
        ∃ k ent, MemoryLeaderboardService.GetUserPosition entries uid =
            (((k + 1 : Nat) : Int), some ent) ∧
          (sortEntries entries).get? k = some ent ∧ ent.userID = uid ∧
          (∀ j x, j < k → (sortEntries entries).get? j = some x →
            x.userID ≠ uid) ∧
          (sortEntries entries).Sorted entryGE ∧
          (sortEntries entries).Perm entries) ∧
      (entries.length ≤ 1000 →
        GistLeaderboardService.GetUserPosition entries uid =
          MemoryLeaderboardService.GetUserPosition entries uid) := by
  intro entries uid
  refine ⟨?_, ?_, ?_⟩
  · intro h
    rw [memoryGetUserPosition_eq_scan]
    exact scanPositionAux_not_found uid _ 0
      (fun e he => h e ((sortEntries_perm entries).mem_iff.mp he))
  · intro h
    rw [memoryGetUserPosition_eq_scan]
    have h' : ∃ e ∈ sortEntries entries, e.userID = uid := by
      rcases h with ⟨e, he, heq⟩
      exact ⟨e, (sortEntries_perm entries).mem_iff.mpr he, heq⟩
    obtain ⟨k, ent, h1, h2, h3, h4⟩ := scanPositionAux_found uid _ 0 h'
    refine ⟨k, ent, ?_, h2, h3, h4, sortEntries_sorted entries,
      sortEntries_perm entries⟩
    rw [h1]
    congr 2
    omega
  · intro h
    rw [gistGetUserPosition_eq_scan entries uid h,
      memoryGetUserPosition_eq_scan]

/-- Witness for C6 at concrete inputs: a one-entry collection, queried for
an absent user (uid 2), the present user (uid 1), and the gist/memory
agreement. -/
theorem C6_getUserPosition_spec_witness :
    MemoryLeaderboardService.GetUserPosition [entryPct70Score7] 2 = (-1, none) ∧
    (∃ k ent, MemoryLeaderboardService.GetUserPosition [entryPct70Score7] 1 =
        (((k + 1 : Nat) : Int), some ent) ∧
      (sortEntries [entryPct70Score7]).get? k = some ent ∧ ent.userID = 1 ∧
      (∀ j x, j < k → (sortEntries [entryPct70Score7]).get? j = some x →
        x.userID ≠ 1) ∧
      (sortEntries [entryPct70Score7]).Sorted entryGE ∧
      (sortEntries [entryPct70Score7]).Perm [entryPct70Score7]) ∧
    GistLeaderboardService.GetUserPosition [entryPct70Score7] 1 =
      MemoryLeaderboardService.GetUserPosition [entryPct70Score7] 1 :=
  ⟨(C6_getUserPosition_spec [entryPct70Score7] 2).1 (by decide),
   (C6_getUserPosition_spec [entryPct70Score7] 1).2.1
     ⟨entryPct70Score7, by simp, rfl⟩,
   (C6_getUserPosition_spec [entryPct70Score7] 1).2.2 (by decide)⟩

set_option maxRecDepth 100000 in
/-- Counterexample to C6 as stated: in a 1001-entry collection (all with
equal percentage and score) the user with id 1000 is present, yet the gist
implementation returns the not-found sentinel `(-1, nil)` instead of a
numeric rank, because it only scans the first 1000 sorted entries. -/
theorem C6_gist_misses_rank_beyond_1000 :
    targetEntry ∈ bigEntries ∧
    targetEntry.userID = 1000 ∧
    GistLeaderboardService.GetUserPosition bigEntries 1000 = (-1, none) := by
  decide

/-- C3 (code bug): the claim (and §4.2 of the design) requires an
out-of-range `questionIndex` not to panic; the code indexes
`session.Questions[questionIndex]` with no bounds check (handler.go line
178), so with an active 2-question session the answer actions `quiz_5_0`
and `quiz_-1_0` are runtime panics, not invalid-answer no-ops. -/
theorem C3_out_of_range_answer_panics :
    (Bot.startQuiz 7 DefaultQuizQuestions).questions.length = 2 ∧
    Bot.handleQuizAnswer (some (Bot.startQuiz 7 DefaultQuizQuestions))
      "quiz_5_0".toList = .panic ∧
    Bot.handleQuizAnswer (some (Bot.startQuiz 7 DefaultQuizQuestions))
      "quiz_-1_0".toList = .panic := by
  decide

theorem answerCore_answered (s : QuizSession) (qi ai : Int) (t : QuizSession)
    (h : answerCore s qi ai = .answered t) :
    t.currentQuestion = s.currentQuestion + 1 ∧
    (t.score = s.score ∨ t.score = s.score + 1) ∧
    t.questions = s.questions := by
  unfold answerCore at h
  split at h
  · split at h
    · cases h
      exact ⟨rfl, Or.inr rfl, rfl⟩
    · split at h
      · cases h
        exact ⟨rfl, Or.inl rfl, rfl⟩
      · exact absurd h (by simp)
  · exact absurd h (by simp)

theorem runAnswers_counts :
    ∀ (answers : List (Int × Int)) (s s' : QuizSession),
      runAnswers s answers = some s' →
      s'.currentQuestion = s.currentQuestion + answers.length ∧
      s'.score ≤ s.score + answers.length := by
  intro answers
  induction answers with
  | nil =>
    intro s s' h
    cases h
    simp
  | cons p rest ih =>
    intro s s' h
    obtain ⟨qi, ai⟩ := p
    unfold runAnswers at h
    cases hc : answerCore s qi ai with
    | noop => rw [hc] at h; cases h
    | panic => rw [hc] at h; cases h
    | answered t =>
      rw [hc] at h
      obtain ⟨h1, h2, -⟩ := answerCore_answered s qi ai t hc
      obtain ⟨ih1, ih2⟩ := ih t s' h
      have hlen : ((qi, ai) :: rest).length = rest.length + 1 := rfl
      constructor
      · omega
      · rcases h2 with h2 | h2 <;> omega

/-- C4 (session counter invariant): processing one answer whose
`questionIndex` is in range (and whose question has a well-formed
`correctIndex`, as every loaded question does) always increments
`currentIndex` by exactly 1 and increments `score` by exactly 1 exactly when
`optionIndex` equals the question's `correctIndex`; consequently a session
started with `currentIndex = 0, score = 0` satisfies, after `k` processed
answers with `k ≤ total`, `currentIndex = k` and `score ≤ k`. -/
theorem C4_session_counters :
    (∀ (s : QuizSession) (qi ai : Int)
        (h0 : 0 ≤ qi) (h1 : qi.toNat < s.questions.length),
      (0 ≤ (s.questions.get ⟨qi.toNat, h1⟩).correct ∧
          (s.questions.get ⟨qi.toNat, h1⟩).correct.toNat <
            (s.questions.get ⟨qi.toNat, h1⟩).options.length) →
      ∃ t, answerCore s qi ai = .answered t ∧
        t.currentQuestion = s.currentQuestion + 1 ∧
        t.score = s.score +
          (if ai = (s.questions.get ⟨qi.toNat, h1⟩).correct then 1 else 0) ∧
        t.questions = s.questions) ∧
    (∀ (chatID : Int) (qs : List QuizQuestion) (answers : List (Int × Int))
        (s' : QuizSession), answers.length ≤ qs.length →
      runAnswers (Bot.startQuiz chatID qs) answers = some s' →
      s'.currentQuestion = answers.length ∧ s'.score ≤ answers.length) := by
  constructor
  · intro s qi ai h0 h1 hopt
    unfold answerCore
    rw [dif_pos ⟨h0, h1⟩]
    by_cases hc : ai = (s.questions.get ⟨qi.toNat, h1⟩).correct
    · rw [if_pos hc, if_pos hc]
      exact ⟨_, rfl, rfl, rfl, rfl⟩
    · rw [if_neg hc, if_neg hc, if_pos hopt]
      exact ⟨_, rfl, rfl, by simp, rfl⟩
  · intro chatID qs answers s' _ h
    have := runAnswers_counts answers (Bot.startQuiz chatID qs) s' h
    simpa [Bot.startQuiz] using this

/-- Witness for C4 at a concrete input: the default two-question catalogue,
first question answered correctly (option 1), then running the two-answer
trace `[(0,1),(1,0)]` (both correct) from a fresh session. -/
theorem C4_session_counters_witness :
    (∃ t, answerCore (Bot.startQuiz 7 DefaultQuizQuestions) 0 1 = .answered t ∧
        t.currentQuestion = 1 ∧ t.score = 1) ∧
    ({ userID := 7, currentQuestion := 2, score := 2,
       questions := DefaultQuizQuestions } : QuizSession).currentQuestion = 2 ∧
    ({ userID := 7, currentQuestion := 2, score := 2,
       questions := DefaultQuizQuestions } : QuizSession).score ≤ 2 := by
  refine ⟨?_, ?_⟩
  · obtain ⟨t, heq, h1, h2, -⟩ :=
      C4_session_counters.1 (Bot.startQuiz 7 DefaultQuizQuestions) 0 1
        (by decide) (by decide) (by decide)
    refine ⟨t, heq, ?_, ?_⟩
    · rw [h1]
      rfl
    · rw [h2]
      decide
  · exact C4_session_counters.2 7 DefaultQuizQuestions [(0, 1), (1, 0)]
      { userID := 7, currentQuestion := 2, score := 2,
        questions := DefaultQuizQuestions } (by decide) (by decide)

theorem handleQuizAnswer_none (data : List Char) :
    Bot.handleQuizAnswer none data = .noop := by
  unfold Bot.handleQuizAnswer
  split
  · rfl
  · rfl

theorem handleQuizAnswer_len_ne3 (sessionOpt : Option QuizSession)
    (data : List Char) (h : (splitUnderscore data).length ≠ 3) :
    Bot.handleQuizAnswer sessionOpt data = .noop := by
  unfold Bot.handleQuizAnswer
  rcases hs : splitUnderscore data with - | ⟨a, - | ⟨b, - | ⟨c, - | ⟨d, tl⟩⟩⟩⟩
  · rfl
  · rfl
  · rfl
  · rw [hs] at h
    exact absurd rfl h
  · rfl

/-- C7 (amended): session operations for a `userID` with no active session
are silent no-ops — the answer handler and `finishQuiz` leave the session
map and the leaderboard unchanged — and an answer action that does not split
into exactly three `_`-separated parts is likewise a silent no-op.  (The
claim's stronger reading — that every action failing to parse into numeric
indices is a no-op — is false: a three-part action with non-numeric indices
is processed as question 0 / option 0, see the counterexample.) -/
theorem C7_silent_noop :
    ∀ (sessions : List (Int × QuizSession)) (lb : List LeaderboardEntry)
      (chatID : Int) (data : List Char) (exited : Bool) (uid : Int)
      (un fn date : String),
      (lookupSession sessions chatID = none →
        Bot.handleQuizAnswerMap sessions chatID data = some sessions ∧
        Bot.finishQuiz sessions lb chatID exited uid un fn date =
          some (sessions, lb)) ∧
      ((splitUnderscore data).length ≠ 3 →
        Bot.handleQuizAnswerMap sessions chatID data = some sessions) := by
  intro sessions lb chatID data exited uid un fn date
  constructor
  · intro h
    constructor
    · unfold Bot.handleQuizAnswerMap
      rw [h, handleQuizAnswer_none]
    · unfold Bot.finishQuiz
      rw [h]
  · intro h
    unfold Bot.handleQuizAnswerMap
    rw [handleQuizAnswer_len_ne3 _ _ h]

/-- Witness for C7 at concrete inputs: an empty session map with a
well-formed answer action and a finish, and a two-part (malformed) action. -/
theorem C7_silent_noop_witness :
    (Bot.handleQuizAnswerMap [] 7 "quiz_0_0".toList = some [] ∧
      Bot.finishQuiz [] [] 7 false 7 "u" "f" "d" = some ([], [])) ∧
    Bot.handleQuizAnswerMap [] 7 "quiz_0".toList = some [] :=
  ⟨(C7_silent_noop [] [] 7 "quiz_0_0".toList false 7 "u" "f" "d").1 (by decide),
   (C7_silent_noop [] [] 7 "quiz_0".toList false 7 "u" "f" "d").2 (by decide)⟩

/-- Counterexample to C7 as stated: the action `quiz_x_y` does not parse
into a question index and an option index (`strconv.Atoi` fails on both
`x` and `y`), yet with an active session it is not a no-op — the discarded
`Atoi` errors leave both indices 0, so the handler processes it as an answer
to question 0 with option 0 and advances the session. -/
theorem C7_malformed_action_changes_state :
    atoi "x".toList = none ∧ atoi "y".toList = none ∧
    (splitUnderscore "quiz_x_y".toList).length = 3 ∧
    Bot.handleQuizAnswer (some (Bot.startQuiz 7 DefaultQuizQuestions))
        "quiz_x_y".toList =
      .answered { userID := 7, currentQuestion := 1, score := 0,
                  questions := DefaultQuizQuestions } ∧
    ({ userID := 7, currentQuestion := 1, score := 0,
       questions := DefaultQuizQuestions } : QuizSession) ≠
      Bot.startQuiz 7 DefaultQuizQuestions := by
  decide

theorem cons_set_perm :
    ∀ (t : List QuizQuestion) (k : Nat) (hk : k < t.length) (a : QuizQuestion),
      ((t.get ⟨k, hk⟩) :: t.set k a).Perm (a :: t) := by
  intro t
  induction t with
  | nil => intro k hk; simp at hk
  | cons b s ih =>
    intro k hk a
    match k with
    | 0 => exact List.Perm.swap a b s
    | Nat.succ k' =>
      have hk' : k' < s.length := by
        simpa using hk
      have h1 : ((b :: s).get ⟨k' + 1, hk⟩ :: (b :: s).set (k' + 1) a) =
          (s.get ⟨k', hk'⟩ :: b :: s.set k' a) := rfl
      rw [h1]
      exact (List.Perm.swap b (s.get ⟨k', hk'⟩) (s.set k' a)).trans
        (((ih k' hk' a).cons b).trans (List.Perm.swap a b s))

theorem set_set_perm :
    ∀ (l : List QuizQuestion) (i j : Nat) (hi : i < l.length)
      (hj : j < l.length),
      ((l.set i (l.get ⟨j, hj⟩)).set j (l.get ⟨i, hi⟩)).Perm l := by
  intro l
  induction l with
  | nil => intro i j hi _; simp at hi
  | cons a t ih =>
    intro i j hi hj
    match i, j with
    | 0, 0 => exact List.Perm.refl _
    | 0, Nat.succ j' =>
      have hj' : j' < t.length := by
        simpa using hj
      exact cons_set_perm t j' hj' a
    | Nat.succ i', 0 =>
      have hi' : i' < t.length := by
        simpa using hi
      exact cons_set_perm t i' hi' a
    | Nat.succ i', Nat.succ j' =>
      have hi' : i' < t.length := by
        simpa using hi
      have hj' : j' < t.length := by
        simpa using hj
      exact (ih i' j' hi' hj').cons a

theorem listSwap_perm (l : List QuizQuestion) (i j : Nat) :
    (listSwap l i j).Perm l := by
  unfold listSwap
  split
  case isTrue h => exact set_set_perm l i j h.1 h.2
  case isFalse => exact List.Perm.refl _

theorem fisherYatesAux_perm (rand : Nat → Nat) :
    ∀ (n : Nat) (l : List QuizQuestion), (fisherYatesAux rand l n).Perm l := by
  intro n
  induction n with
  | zero => intro l; exact List.Perm.refl _
  | succ k ih =>
    intro l
    unfold fisherYatesAux
    exact (ih _).trans (listSwap_perm l (k + 1) (rand (k + 1)))

/-- C8 (shuffle purity): for every catalogue and every randomness source,
`ShuffleQuestions` returns a list of the same length that is a permutation
of the input — in particular every question occurs in the output exactly as
often as in the input — and, the embedding being a pure function of the
input list, the input itself is left unmodified (the Go code copies the
slice before shuffling). -/
theorem C8_shuffle_is_permutation :
    ∀ (rand : Nat → Nat) (questions : List QuizQuestion),
      (ShuffleQuestions rand questions).length = questions.length ∧
      (ShuffleQuestions rand questions).Perm questions ∧
      ∀ q, (ShuffleQuestions rand questions).count q = questions.count q := by
  intro rand qs
  have hp : (ShuffleQuestions rand qs).Perm qs :=
    fisherYatesAux_perm rand (qs.length - 1) qs
  exact ⟨hp.length_eq, hp, fun q => hp.count_eq q⟩

theorem parseQuestionLine_no_quote (t : List Char) (h : '"' ∉ t.drop 1) :
    parseQuestionLine t = .error "invalid format: no closing quote" := by
  have hnone : (t.drop 1).findIdx? (fun c => c = '"') = none := by
    rw [List.findIdx?_eq_none_iff]
    intro x hx
    simp only [decide_eq_false_iff_not]
    intro hxeq
    exact h (hxeq ▸ hx)
  simp only [parseQuestionLine, hnone]

theorem parseQuestionLine_missing_digit (t : List Char) (idx : Nat)
    (hfound : (t.drop 1).findIdx? (fun c => c = '"') = some idx)
    (hrem : trimSpace ((t.drop 1).drop (idx + 1)) = []) :
    parseQuestionLine t = .error "no correctness indicator found" := by
  simp only [parseQuestionLine, hfound, hrem]

theorem parseQuestionLine_bad_digit (t : List Char) (idx : Nat) (c : Char)
    (rest : List Char)
    (hfound : (t.drop 1).findIdx? (fun c => c = '"') = some idx)
    (hrem : trimSpace ((t.drop 1).drop (idx + 1)) = c :: rest)
    (hc : ∀ d, digitVal c = some d → d ≠ 0 ∧ d ≠ 1) :
    ∃ e, parseQuestionLine t = .error e := by
  simp only [parseQuestionLine, hfound, hrem]
  rcases hd : digitVal c with - | d
  · exact ⟨"invalid correctness indicator", by dsimp only⟩
  · have h01 := hc d hd
    refine ⟨"correctness must be 0 or 1", ?_⟩
    dsimp only
    rw [if_pos h01]

theorem parseQuestionLine_empty_question (t : List Char) (idx : Nat)
    (hfound : (t.drop 1).findIdx? (fun c => c = '"') = some idx)
    (hq : (t.drop 1).take idx = []) :
    ∃ e, parseQuestionLine t = .error e := by
  simp only [parseQuestionLine, hfound, hq]
  rcases hrem : trimSpace ((t.drop 1).drop (idx + 1)) with - | ⟨c, rest⟩
  · exact ⟨"no correctness indicator found", rfl⟩
  · dsimp only
    rcases hd : digitVal c with - | d
    · exact ⟨"invalid correctness indicator", by dsimp only⟩
    · dsimp only
      by_cases h01 : d ≠ 0 ∧ d ≠ 1
      · refine ⟨"correctness must be 0 or 1", ?_⟩
        rw [if_pos h01]
      · refine ⟨"question cannot be empty", ?_⟩
        rw [if_neg h01]
        rfl

theorem parseLinesAux_error :
    ∀ (lines : List (List Char)) (questionID : Nat) (t : List Char),
      t ∈ lines → trimSpace t ≠ [] →
      (∃ e, parseQuestionLine (trimSpace t) = .error e) →
      ∃ e, parseLinesAux questionID lines = .error e := by
  intro lines
  induction lines with
  | nil => intro qid t ht; simp at ht
  | cons l ls ih =>
    intro qid t ht hnb hex
    obtain ⟨e, he⟩ := hex
    rcases List.mem_cons.mp ht with rfl | hmem
    · unfold parseLinesAux
      rw [if_neg hnb, he]
      exact ⟨e, rfl⟩
    · unfold parseLinesAux
      by_cases hbl : trimSpace l = []
      · rw [if_pos hbl]
        exact ih qid t hmem hnb ⟨e, he⟩
      · rw [if_neg hbl]
        cases hp : parseQuestionLine (trimSpace l) with
        | error e2 => exact ⟨e2, rfl⟩
        | ok qc =>
          obtain ⟨q, cc⟩ := qc
          obtain ⟨e3, he3⟩ := ih (qid + 1) t hmem hnb ⟨e, he⟩
          rw [he3]
          exact ⟨e3, rfl⟩

/-- C9 (question-file load): each of the malformed-line shapes — no closing
quote in `line[1:]`, no correctness indicator after the quote, an indicator
that is not the digit 0 or 1, and an empty question text — makes
`parseQuestionLine` fail; and whenever any non-blank line of the file fails
to parse, the whole `ParseQuizQuestions` returns an error (no partial
question list), upon which `LoadQuizQuestions` falls back to the built-in
`DefaultQuizQuestions`. -/
theorem C9_malformed_line_fails :
    (∀ t : List Char, '"' ∉ t.drop 1 →
      parseQuestionLine t = .error "invalid format: no closing quote") ∧
    (∀ (t : List Char) (idx : Nat),
      (t.drop 1).findIdx? (fun c => c = '"') = some idx →
      trimSpace ((t.drop 1).drop (idx + 1)) = [] →
      parseQuestionLine t = .error "no correctness indicator found") ∧
    (∀ (t : List Char) (idx : Nat) (c : Char) (rest : List Char),
      (t.drop 1).findIdx? (fun c => c = '"') = some idx →
      trimSpace ((t.drop 1).drop (idx + 1)) = c :: rest →
      (∀ d, digitVal c = some d → d ≠ 0 ∧ d ≠ 1) →
      ∃ e, parseQuestionLine t = .error e) ∧
    (∀ (t : List Char) (idx : Nat),
      (t.drop 1).findIdx? (fun c => c = '"') = some idx →
      (t.drop 1).take idx = [] →
      ∃ e, parseQuestionLine t = .error e) ∧
    (∀ (lines : List (List Char)) (t : List Char),
      t ∈ lines → trimSpace t ≠ [] →
      (∃ e, parseQuestionLine (trimSpace t) = .error e) →
      (∃ e, ParseQuizQuestions lines = .error e) ∧
      LoadQuizQuestions (some lines) = DefaultQuizQuestions) := by
  refine ⟨parseQuestionLine_no_quote, parseQuestionLine_missing_digit,
    parseQuestionLine_bad_digit, parseQuestionLine_empty_question, ?_⟩
  intro lines t ht hnb hex
  obtain ⟨e, he⟩ := parseLinesAux_error lines 1 t ht hnb hex
  have hparse : ParseQuizQuestions lines = .error e := by
    unfold ParseQuizQuestions
    rw [he]
  refine ⟨⟨e, hparse⟩, ?_⟩
  have hload : LoadQuizQuestions (some lines) =
      (match ParseQuizQuestions lines with
        | .error _ => DefaultQuizQuestions
        | .ok qs => qs) := rfl
  rw [hload, hparse]

/-- Witness for C9 at a concrete input: the single-line file `"Pork` (no
closing quote) fails to parse and the loader returns the default set. -/
theorem C9_malformed_line_fails_witness :
    parseQuestionLine "\"Pork".toList =
      .error "invalid format: no closing quote" ∧
    (∃ e, ParseQuizQuestions ["\"Pork".toList] = .error e) ∧
    LoadQuizQuestions (some ["\"Pork".toList]) = DefaultQuizQuestions := by
  refine ⟨C9_malformed_line_fails.1 _ (by decide), ?_, ?_⟩
  · exact (C9_malformed_line_fails.2.2.2.2 ["\"Pork".toList] "\"Pork".toList
      (by simp) (by decide) ⟨"invalid format: no closing quote", rfl⟩).1
  · exact (C9_malformed_line_fails.2.2.2.2 ["\"Pork".toList] "\"Pork".toList
      (by simp) (by decide) ⟨"invalid format: no closing quote", rfl⟩).2
